import Mathlib

/-!
A shallow embedding, in Lean, of the core of the `nara` single-threaded
asynchronous runtime, together with theorems settling the specification
claims about it.

Each definition is translated from the Rust source it names (file and
lines given in its doc comment).  Machine integers (`u64`, `usize`,
`i16`/`i32` bit masks) are modelled as `Nat`/`Int`; `Instant` as a `Nat`
tick count; wakers as an abstract type parameter so that a theorem can
observe which wakers were invoked and in which order.
-/

namespace Nara

/-- Result of polling a future, mirroring the two-state poll result type. -/
inductive Poll (α : Type) where
  | Ready (v : α)
  | Pending
  deriving Repr, DecidableEq

/-- A task as stored by the executor: its unique id and its type-erased
future, abstracted here as a payload of type `β` (src/src/task.rs,
`struct Task`; the task's waker is a pure function of its id and is not
part of the state). -/
structure Task (β : Type) where
  id : Nat
  future : β
  deriving Repr, DecidableEq

/-- The state of `InnerExecutor` (src/src/executor.rs, lines 21-44): run
queue, parked-task table, current task id, current-task-woken flag and the
next fresh id.  The `VecDeque` run queue is a list whose head is the front
of the deque, so `push_back` appends at the tail; the `HashMap` of parked
tasks is an association list with unique keys. -/
structure ExecState (β : Type) where
  runq : List (Task β)
  tasks : List (Nat × Task β)
  current_id : Nat
  current_woken : Bool
  next_id : Nat
  deriving Repr, DecidableEq

/-- `HashMap` lookup in the parked-task table. -/
def tasksLookup {β : Type} (l : List (Nat × Task β)) (id : Nat) : Option (Task β) :=
  match l with
  | [] => none
  | (k, t) :: rest => if k = id then some t else tasksLookup rest id

/-- `HashMap::remove`: erase the (unique) entry with the given key. -/
def tasksErase {β : Type} (l : List (Nat × Task β)) (id : Nat) : List (Nat × Task β) :=
  match l with
  | [] => []
  | (k, t) :: rest => if k = id then rest else (k, t) :: tasksErase rest id

/-- `HashMap::insert`: replace the entry with the same key, or append. -/
def tasksInsert {β : Type} (l : List (Nat × Task β)) (id : Nat) (t : Task β) :
    List (Nat × Task β) :=
  match l with
  | [] => [(id, t)]
  | (k, u) :: rest => if k = id then (id, t) :: rest else (k, u) :: tasksInsert rest id t

/-- `Executor::new` (src/src/executor.rs, lines 52-69): empty run queue and
task table, current id 0, woken flag false, next id 1. -/
def Executor.init {β : Type} : ExecState β :=
  { runq := [], tasks := [], current_id := 0, current_woken := false, next_id := 1 }

/-- `Executor::pop_task` (src/src/executor.rs, lines 85-87):
`self.inner.runq.borrow_mut().pop_back()` — it removes from the BACK of the
`VecDeque`. -/
def Executor.pop_task {β : Type} (s : ExecState β) : Option (Task β × ExecState β) :=
  match s.runq.getLast? with
  | none => none
  | some t => some (t, { s with runq := s.runq.dropLast })

/-- `InnerExecutor::spawn` (src/src/executor.rs, lines 152-158): allocate
the next id, build the task and `push_back` it onto the run queue.  The
`JoinHandle` is represented by the returned id. -/
def InnerExecutor.spawn {β : Type} (s : ExecState β) (fut : β) : ExecState β × Nat :=
  let id := s.next_id
  ({ s with next_id := id + 1, runq := s.runq ++ [{ id := id, future := fut }] }, id)

/-- `InnerExecutor::queue` (src/src/executor.rs, lines 170-180): if the id
is the currently running task, set the woken flag; otherwise move the task
from the parked table (if present) to the back of the run queue. -/
def InnerExecutor.queue {β : Type} (s : ExecState β) (task_id : Nat) : ExecState β :=
  if s.current_id = task_id then { s with current_woken := true }
  else
    match tasksLookup s.tasks task_id with
    | some task =>
        { s with tasks := tasksErase s.tasks task_id, runq := s.runq ++ [task] }
    | none => s

/-- The thread-local `RUNTIME` binding (src/src/runtime.rs, lines 25-27):
an upgradable weak reference to an `InnerRuntime`, modelled as the
optional identity of the bound runtime (`Rc::ptr_eq` compares these
identities). -/
structure ThreadLocalRuntime where
  bound : Option Nat
  deriving Repr, DecidableEq

/-- The error kind of `std::io::Error` that the claims mention. -/
inductive IoErrorKind where
  | AlreadyExists
  | Other
  deriving Repr, DecidableEq

/-- `Runtime::new` (src/src/runtime.rs, lines 54-60): builds the reactor,
timer and executor and returns `Ok` unconditionally — it never inspects
the thread-local binding (syscall failures inside `Reactor::new` and
`Executor::new` panic via `unwrap` rather than returning `Err`).  The new
runtime gets the fresh identity `fresh`; the thread-local state is left
untouched. -/
def Runtime.new (tl : ThreadLocalRuntime) (fresh : Nat) :
    Except IoErrorKind (ThreadLocalRuntime × Nat) :=
  Except.ok (tl, fresh)

/-- Outcome of `EnterGuard::new`: either the code panicked, or the guard
was created leaving the given thread-local binding. -/
inductive EnterResult where
  | panicked
  | entered (tl : ThreadLocalRuntime)
  deriving Repr, DecidableEq

/-- `EnterGuard::new` (src/src/runtime.rs, lines 83-97): if the weak
binding upgrades to a runtime that is not `rt`, panic; if it upgrades to
`rt` itself, leave the binding as is; if it does not upgrade, bind `rt`. -/
def EnterGuard.new (tl : ThreadLocalRuntime) (rt : Nat) : EnterResult :=
  match tl.bound with
  | some r => if r ≠ rt then .panicked else .entered tl
  | none => .entered { bound := some rt }

/-- Key of a timer entry: `struct Sleep` (src/src/time.rs, lines 67-71).
The `Instant` deadline is modelled as a `Nat` tick count; `id` is the
disambiguating monotonic counter.  The derived `Ord` on the struct is
lexicographic in field order. -/
structure Sleep where
  deadline : Nat
  id : Nat
  deriving Repr, DecidableEq

/-- The derived lexicographic strict order on `Sleep`. -/
def Sleep.ltb (a b : Sleep) : Bool :=
  a.deadline < b.deadline || (a.deadline = b.deadline && a.id < b.id)

/-- `InnerTimer` (src/src/time.rs, lines 14-17): the
`BTreeMap<Sleep, Option<Waker>>` is a key-value list kept sorted by the
key order, plus the `next_id` counter.  Wakers are abstract values of
type `ω`. -/
structure InnerTimer (ω : Type) where
  timers : List (Sleep × Option ω)
  next_id : Nat
  deriving Repr, DecidableEq

/-- `BTreeMap::insert`: place the key at its ordered position, replacing
an equal key. -/
def btreeInsert {ω : Type} (l : List (Sleep × Option ω)) (k : Sleep) (v : Option ω) :
    List (Sleep × Option ω) :=
  match l with
  | [] => [(k, v)]
  | (c, w) :: rest =>
    if Sleep.ltb c k then (c, w) :: btreeInsert rest k v
    else if c = k then (k, v) :: rest
    else (k, v) :: (c, w) :: rest

/-- `BTreeMap::get`: find the value stored under a key. -/
def btreeLookup {ω : Type} (l : List (Sleep × Option ω)) (k : Sleep) : Option (Option ω) :=
  match l with
  | [] => none
  | (c, w) :: rest => if c = k then some w else btreeLookup rest k

/-- `BTreeMap::get_mut` followed by an in-place update: replace the value
stored under an existing key. -/
def btreeSet {ω : Type} (l : List (Sleep × Option ω)) (k : Sleep) (v : Option ω) :
    List (Sleep × Option ω) :=
  match l with
  | [] => []
  | (c, w) :: rest => if c = k then (c, v) :: rest else (c, w) :: btreeSet rest k v

/-- `sleep_until` (src/src/time.rs, lines 87-96): allocate the next id,
insert `(deadline, id) ↦ None` into the map and return the `Sleep` key. -/
def sleep_until {ω : Type} (t : InnerTimer ω) (deadline : Nat) : InnerTimer ω × Sleep :=
  let id := t.next_id
  let key : Sleep := { deadline := deadline, id := id }
  ({ timers := btreeInsert t.timers key none, next_id := id + 1 }, key)

/-- Effect of dropping a `Sleep` value on the timer state.  `Sleep` in
src/src/time.rs has NO `Drop` implementation, so dropping it only drops
its `Instant` and `u64` fields and leaves the timer map untouched. -/
def Sleep.dropSleep {ω : Type} (t : InnerTimer ω) (_s : Sleep) : InnerTimer ω := t

/-- The expired-prefix removal of `Timer::tick` on the sorted entry list:
repeatedly remove the first entry whose deadline is ≤ now, collecting its
waker when one is set; stop at the first later deadline. -/
def tickList {ω : Type} (l : List (Sleep × Option ω)) (now : Nat) :
    List (Sleep × Option ω) × List ω :=
  match l with
  | [] => ([], [])
  | (k, w) :: rest =>
    if k.deadline ≤ now then
      let p := tickList rest now
      (p.1, w.toList ++ p.2)
    else ((k, w) :: rest, [])

/-- `Timer::tick` (src/src/time.rs, lines 54-64).  Returns the new state
and the wakers woken, in order. -/
def Timer.tick {ω : Type} (t : InnerTimer ω) (now : Nat) : InnerTimer ω × List ω :=
  let p := tickList t.timers now
  ({ t with timers := p.1 }, p.2)

/-- `impl Future for Sleep` (src/src/time.rs, lines 102-119): if the key
is absent from the map, Ready; if present, `get_or_insert_with` the
context's waker — an already-stored waker is KEPT — and Pending. -/
def Sleep.pollSleep {ω : Type} (t : InnerTimer ω) (s : Sleep) (cxWaker : ω) :
    Poll Unit × InnerTimer ω :=
  match btreeLookup t.timers s with
  | none => (.Ready (), t)
  | some e => (.Pending, { t with timers := btreeSet t.timers s (some (e.getD cxWaker)) })

/-- `SendError(T)` (re-exported from the standard library): a failed send
returns the original value. -/
structure SendError (α : Type) where
  value : α
  deriving Repr, DecidableEq

/-- `usize::MAX`: the capacity marking the unbounded channel flavor. -/
def usizeMax : Nat := 2 ^ 64 - 1

/-- The shared state of the single-thread channel
(src/src/mpsc_unsync.rs, lines 10-17).  The number of live senders is
kept alongside as `senders` in the operations below; in the source it is
`Rc::strong_count(&channel) - 1` (the receiver holds the one other
strong reference). -/
structure Channel (α ω : Type) where
  queue : List α
  capacity : Nat
  tx_wakers : List (Nat × ω)
  rx_waker : Option ω
  recv_gone : Bool
  last_id : Nat
  deriving Repr, DecidableEq

/-- The in-place waker update performed by
`tx_wakers.iter_mut().find(|w| w.0 == self.id)`: replace the first entry
with the given sender id. -/
def txUpdate {ω : Type} (l : List (Nat × ω)) (id : Nat) (wk : ω) : List (Nat × ω) :=
  match l with
  | [] => []
  | (k, w) :: rest => if k = id then (k, wk) :: rest else (k, w) :: txUpdate rest id wk

/-- One poll of the `poll_fn` inside `Sender::send`
(src/src/mpsc_unsync.rs, lines 68-94): closed channel reports the error
with the value; under capacity pushes and wakes the receiver; otherwise
registers or updates this sender's waker and stays Pending.  Returns the
poll result, the new channel state and the waker woken by this poll, if
any. -/
def Sender.sendPoll {α ω : Type} (ch : Channel α ω) (selfId : Nat) (value : α)
    (cxWaker : ω) : Poll (Except (SendError α) Unit) × Channel α ω × Option ω :=
  if ch.recv_gone then
    (.Ready (.error { value := value }), ch, none)
  else if ch.queue.length < ch.capacity then
    (.Ready (.ok ()), { ch with queue := ch.queue ++ [value], rx_waker := none },
      ch.rx_waker)
  else if ch.tx_wakers.any fun w => w.1 == selfId then
    (.Pending, { ch with tx_wakers := txUpdate ch.tx_wakers selfId cxWaker }, none)
  else
    (.Pending, { ch with tx_wakers := ch.tx_wakers ++ [(selfId, cxWaker)] }, none)

/-- `impl Drop for Receiver` (src/src/mpsc_unsync.rs, lines 176-183): set
`recv_gone` and wake every registered sender waker, in order. -/
def Receiver.dropReceiver {α ω : Type} (ch : Channel α ω) : Channel α ω × List ω :=
  ({ ch with recv_gone := true, tx_wakers := [] }, ch.tx_wakers.map (fun w => w.2))

/-- One poll of the `poll_fn` inside `Receiver::recv`
(src/src/mpsc_unsync.rs, lines 148-173).  `senders` is the number of live
`Sender` clones, so the source's `Rc::strong_count(&self.channel) == 1`
test is `senders = 0`.  Returns the poll result, the new channel state
and the waker woken by this poll (the head sender's, on a bounded pop),
if any. -/
def Receiver.recvPoll {α ω : Type} (ch : Channel α ω) (senders : Nat) (cxWaker : ω) :
    Poll (Option α) × Channel α ω × Option ω :=
  match ch.queue with
  | value :: rest =>
    if ch.capacity ≠ usizeMax then
      (.Ready (some value), { ch with queue := rest, tx_wakers := ch.tx_wakers.tail },
        (ch.tx_wakers.head?).map (fun w => w.2))
    else
      (.Ready (some value), { ch with queue := rest }, none)
  | [] =>
    if senders = 0 then (.Ready none, ch, none)
    else (.Pending, { ch with rx_waker := some cxWaker }, none)

/-- `JoinInner` (src/src/task.rs, lines 91-94): the shared cell behind a
`JoinHandle` — the result slot and the awaiter's waker slot. -/
structure JoinInner (α ω : Type) where
  result : Option α
  waker : Option ω
  deriving Repr, DecidableEq

/-- The `JoinError` marker type (src/src/task.rs, line 76). -/
inductive JoinError where
  | joinError
  deriving Repr, DecidableEq

/-- `impl Future for JoinHandle` (src/src/task.rs, lines 123-136):
`inner.result.take()` — taking EMPTIES the cell — then Ready(Ok v) when a
value was there, else store the context's waker and Pending. -/
def JoinHandle.pollJoin {α ω : Type} (st : JoinInner α ω) (cxWaker : ω) :
    Poll (Except JoinError α) × JoinInner α ω :=
  match st.result with
  | some res => (.Ready (.ok res), { st with result := none })
  | none => (.Pending, { st with waker := some cxWaker })

/-- `JoinHandle::set_result` (src/src/task.rs, lines 109-115): store the
value, then wake (taking) the stored waker; the taken waker is
returned. -/
def JoinHandle.set_result {α ω : Type} (st : JoinInner α ω) (res : α) :
    JoinInner α ω × Option ω :=
  ({ st with result := some res, waker := none }, st.waker)

/-- `JoinHandle::get_result` (src/src/task.rs, lines 117-119): take the
result out of the cell. -/
def JoinHandle.get_result {α ω : Type} (st : JoinInner α ω) :
    Option α × JoinInner α ω :=
  (st.result, { st with result := none })

/-- The poll(2) event bit `POLLIN` (Linux libc value). -/
def POLLIN : Nat := 1

/-- The poll(2) event bit `POLLOUT`. -/
def POLLOUT : Nat := 4

/-- The poll(2) event bit `POLLERR`. -/
def POLLERR : Nat := 8

/-- The poll(2) event bit `POLLHUP`. -/
def POLLHUP : Nat := 16

/-- The poll(2) event bit `POLLNVAL`. -/
def POLLNVAL : Nat := 32

/-- `enum Interest` (src/src/reactor.rs, lines 37-42): a waiter's
interest, represented by its poll(2) bit (`#[repr(i16)]`). -/
inductive Interest where
  | Read
  | Write
  deriving Repr, DecidableEq

/-- The numeric value carried by an `Interest`. -/
def Interest.bits : Interest → Nat
  | .Read => POLLIN
  | .Write => POLLOUT

/-- `struct FdWaiter` (src/src/reactor.rs, lines 45-49): interest plus
waker. -/
structure FdWaiter (ω : Type) where
  interest : Interest
  waker : ω
  deriving Repr, DecidableEq

/-- `struct FdWaiters` (src/src/reactor.rs, lines 52-56): the per-fd
refcount and waiter list. -/
structure FdWaiters (ω : Type) where
  refcount : Nat
  waiters : List (FdWaiter ω)
  deriving Repr, DecidableEq

/-- `FdWaiters::poll_bits` (src/src/reactor.rs, lines 58-65): bitwise OR
of the waiters' interests. -/
def FdWaiters.poll_bits {ω : Type} (fw : FdWaiters ω) : Nat :=
  fw.waiters.foldl (fun mask w => mask ||| w.interest.bits) 0

/-- `struct pollfd`: file descriptor (negative means poll(2) ignores the
entry), requested events and returned events. -/
structure Pollfd where
  fd : Int
  events : Nat
  revents : Nat
  deriving Repr, DecidableEq

/-- `POLLERR | POLLHUP | POLLNVAL` (src/src/reactor.rs, line 175). -/
def INTERESTING : Nat := POLLERR ||| POLLHUP ||| POLLNVAL

/-- One slot of the reactor's two parallel vectors `pollfds` and
`fd_waiters` (src/src/reactor.rs, lines 27-28), zipped: the source keeps
them at equal length and always indexes them together. -/
abbrev Slot (ω : Type) := Pollfd × FdWaiters ω

/-- The dispatch test of `react` (src/src/reactor.rs, line 210):
`(w.interest as u32 | INTERESTING) & pollfd.revents != 0`. -/
def wakesWaiter {ω : Type} (w : FdWaiter ω) (revents : Nat) : Bool :=
  ((w.interest.bits ||| INTERESTING) &&& revents) != 0

/-- The body of `react`'s loop for one waiter slot with non-zero returned
events (src/src/reactor.rs, lines 202-231): drain the waiter list,
waking and removing the waiters selected by the dispatch test and
keeping the rest in order; recompute the slot's event mask, deactivating
the slot (negating its fd) when no waiters remain; clear revents.
Returns the new slot and the woken wakers in order. -/
def reactSlot {ω : Type} (s : Slot ω) : Slot ω × List ω :=
  let keep := s.2.waiters.filter fun w => !(wakesWaiter w s.1.revents)
  let woken := (s.2.waiters.filter fun w => wakesWaiter w s.1.revents).map
    fun w => w.waker
  let fw : FdWaiters ω := { s.2 with waiters := keep }
  if keep.length > 0 then
    (({ s.1 with events := fw.poll_bits, revents := 0 }, fw), woken)
  else
    (({ s.1 with events := 0, fd := -s.1.fd, revents := 0 }, fw), woken)

/-- The slot loop of `InnerReactor::react` (src/src/reactor.rs, lines
185-233), at slot index `i` with `todo` reported events left to handle:
stop early once `todo` is 0; skip slots with no returned events; slot 0
is the reactor's own wake pipe — its revents are cleared and the pipe
drained, without waiter dispatch; every other slot with returned events
goes through `reactSlot`.  Returns the new slots and the wakers woken,
in order. -/
def reactLoop {ω : Type} (i todo : Nat) (slots : List (Slot ω)) :
    List (Slot ω) × List ω :=
  match slots with
  | [] => ([], [])
  | s :: rest =>
    if todo = 0 then (s :: rest, [])
    else if s.1.revents ≠ 0 then
      if i = 0 then
        (({ s.1 with revents := 0 }, s.2) :: (reactLoop (i + 1) (todo - 1) rest).1,
          (reactLoop (i + 1) (todo - 1) rest).2)
      else
        ((reactSlot s).1 :: (reactLoop (i + 1) (todo - 1) rest).1,
          (reactSlot s).2 ++ (reactLoop (i + 1) (todo - 1) rest).2)
    else
      (s :: (reactLoop (i + 1) todo rest).1, (reactLoop (i + 1) todo rest).2)

/-- `InnerReactor::react` (src/src/reactor.rs, lines 174-234) after the
poll(2) call: `n` is the syscall's return value and the loop starts at
slot 0 with `todo = n`.  poll(2) reports as its return value exactly the
number of slots with non-zero revents. -/
def InnerReactor.react {ω : Type} (slots : List (Slot ω)) (n : Nat) :
    List (Slot ω) × List ω :=
  reactLoop 0 n slots

/-- What `react`'s loop does to the slot at global index `i`, read off
the loop body: untouched when no events were returned; only revents
cleared (and the pipe drained) for slot 0; waiter dispatch via
`reactSlot` otherwise. -/
def processSlot {ω : Type} (i : Nat) (s : Slot ω) : Slot ω :=
  if s.1.revents = 0 then s
  else if i = 0 then ({ s.1 with revents := 0 }, s.2)
  else (reactSlot s).1

/-- Slot-wise application of `processSlot`, starting at index `i`. -/
def processAll {ω : Type} (i : Nat) (slots : List (Slot ω)) : List (Slot ω) :=
  match slots with
  | [] => []
  | s :: rest => processSlot i s :: processAll (i + 1) rest

/-- The number of slots with non-zero returned events: what poll(2)
returns to `react`. -/
def countEvents {ω : Type} (slots : List (Slot ω)) : Nat :=
  match slots with
  | [] => 0
  | s :: rest => (if s.1.revents ≠ 0 then 1 else 0) + countEvents rest

/-- The wakers the specification says `react` must invoke, in slot order
(claim C5's words): for every waiter slot (index ≥ 1) with non-zero
returned events, exactly the waiters whose interest bit is set in
revents, or for which an error/hangup/invalid condition is reported, in
list order. -/
def reactWokenSpec {ω : Type} (i : Nat) (slots : List (Slot ω)) : List ω :=
  match slots with
  | [] => []
  | s :: rest =>
    (if i = 0 ∨ s.1.revents = 0 then []
     else (s.2.waiters.filter fun w =>
        ((w.interest.bits &&& s.1.revents) != 0)
        || ((INTERESTING &&& s.1.revents) != 0)).map fun w => w.waker)
    ++ reactWokenSpec (i + 1) rest

/-- The waiters of a slot that claim C5 says remain registered: those
whose interest bit is NOT among the returned events and for which no
error/hangup/invalid condition is reported. -/
def keepSpec {ω : Type} (fw : FdWaiters ω) (revents : Nat) : List (FdWaiter ω) :=
  fw.waiters.filter fun w =>
    !(((w.interest.bits &&& revents) != 0) || ((INTERESTING &&& revents) != 0))

/-- A concrete two-slot reactor used to instantiate claim C5: slot 0 is
the wake pipe (readable), slot 1 has a read waiter (waker 10) and a write
waiter (waker 20) and reports `POLLIN | POLLHUP`. -/
def demoSlots : List (Slot Nat) :=
  [({ fd := 3, events := 1, revents := 1 }, { refcount := 1, waiters := [] }),
   ({ fd := 5, events := 5, revents := 17 },
    { refcount := 2,
      waiters := [{ interest := .Read, waker := 10 }, { interest := .Write, waker := 20 }] })]

/-- One poll outcome of a task's future: whether the poll returned Ready,
and the task ids its execution passed to `queue` (same-thread waker
invocations) while it ran. -/
structure PollOut where
  ready : Bool
  wakes : List Nat
  deriving Repr, DecidableEq

/-- A trace entry: one poll performed by the driver loop — the polled
task's id, whether that poll returned Ready, and the value of the
`current_woken` flag right after the poll (true when the task woke
itself during this poll). -/
structure TraceEntry where
  id : Nat
  ready : Bool
  selfWake : Bool
  deriving Repr, DecidableEq

/-- Executor states whose task payloads are their lists of remaining poll
outcomes. -/
abbrev SchedState := ExecState (List PollOut)

/-- The inner loop of `Executor::block_on` (src/src/executor.rs, lines
109-130) driving one popped task with id `id`: poll the future (its
wakes go through `InnerExecutor::queue` while `current_id = id`); on
Ready stop, dropping the task; on Pending consult
`current_woken.replace(false)` — if the task woke itself, poll again at
once, otherwise park the task in the task table.  The future is its
list of remaining poll outcomes; an exhausted list behaves as a future
that stays Pending and wakes nobody.  Returns the state after the task
is dealt with and the trace of its polls. -/
def innerLoop : List PollOut → SchedState → Nat → SchedState × List TraceEntry
  | [], s, id =>
    if s.current_woken then
      ({ s with
          current_woken := false
          tasks := tasksInsert s.tasks id { id := id, future := [] } },
        [{ id := id, ready := false, selfWake := true },
         { id := id, ready := false, selfWake := false }])
    else
      ({ s with tasks := tasksInsert s.tasks id { id := id, future := [] } },
        [{ id := id, ready := false, selfWake := false }])
  | o :: rest, s, id =>
    if o.ready then
      (o.wakes.foldl (fun acc w => InnerExecutor.queue acc w) s,
        [{ id := id, ready := true,
           selfWake := (o.wakes.foldl (fun acc w => InnerExecutor.queue acc w) s).current_woken }])
    else if (o.wakes.foldl (fun acc w => InnerExecutor.queue acc w) s).current_woken then
      ((innerLoop rest
          { o.wakes.foldl (fun acc w => InnerExecutor.queue acc w) s with
            current_woken := false } id).1,
        { id := id, ready := false, selfWake := true }
          :: (innerLoop rest
              { o.wakes.foldl (fun acc w => InnerExecutor.queue acc w) s with
                current_woken := false } id).2)
    else
      ({ o.wakes.foldl (fun acc w => InnerExecutor.queue acc w) s with
          tasks := tasksInsert
            (o.wakes.foldl (fun acc w => InnerExecutor.queue acc w) s).tasks id
            { id := id, future := rest } },
        [{ id := id, ready := false, selfWake := false }])

/-- The run-queue-draining phase of `Executor::block_on`
(src/src/executor.rs, lines 101-146): repeatedly pop a task from the
back of the run queue, set `current_id` to its id, clear the woken flag
and drive it with the inner loop; when the queue is empty, set
`current_id` back to 0.  `fuel` bounds the number of pops so the model
is total; running out of fuel merely truncates the trace at a task
boundary. -/
def drain : Nat → SchedState → SchedState × List TraceEntry
  | 0, s => (s, [])
  | fuel + 1, s =>
    match Executor.pop_task s with
    | none => ({ s with current_id := 0 }, [])
    | some (t, s1) =>
      ((drain fuel
          (innerLoop t.future { s1 with current_id := t.id, current_woken := false } t.id).1).1,
        (innerLoop t.future { s1 with current_id := t.id, current_woken := false } t.id).2
          ++ (drain fuel
              (innerLoop t.future { s1 with current_id := t.id, current_woken := false } t.id).1).2)

/-- A concrete scheduler state for claim C7: one queued task (id 1) whose
future first returns Pending after waking itself, then returns Ready. -/
def selfWakeDemo : SchedState :=
  { runq := [{ id := 1
               future := [{ ready := false, wakes := [1] },
                          { ready := true, wakes := [] }] }]
    tasks := []
    current_id := 0
    current_woken := false
    next_id := 2 }

end Nara

namespace Nara

/-- A strictly smaller `Sleep` key is not equal. -/
theorem Sleep.ltb_ne {a b : Sleep} (h : Sleep.ltb a b = true) : a ≠ b := by
  rintro rfl
  simp [Sleep.ltb] at h

/-- Looking up a key right after inserting it finds the inserted value. -/
theorem btreeLookup_insert {ω : Type} (l : List (Sleep × Option ω)) (k : Sleep)
    (v : Option ω) : btreeLookup (btreeInsert l k v) k = some v := by
  induction l with
  | nil => simp [btreeInsert, btreeLookup]
  | cons hd tl ih =>
    obtain ⟨c, w⟩ := hd
    by_cases hlt : Sleep.ltb c k
    · have hne : c ≠ k := Sleep.ltb_ne hlt
      simp [btreeInsert, btreeLookup, hlt, hne, ih]
    · by_cases heq : c = k
      · subst heq
        simp [btreeInsert, btreeLookup, Sleep.ltb]
      · simp [btreeInsert, btreeLookup, hlt, heq]

/-- Updating the value under a present key makes a later lookup see the
new value. -/
theorem btreeLookup_set {ω : Type} (l : List (Sleep × Option ω)) (k : Sleep)
    (e v : Option ω) (h : btreeLookup l k = some e) :
    btreeLookup (btreeSet l k v) k = some v := by
  induction l with
  | nil => simp [btreeLookup] at h
  | cons hd tl ih =>
    obtain ⟨c, w⟩ := hd
    by_cases heq : c = k
    · simp [btreeSet, btreeLookup, heq]
    · simp [btreeLookup, heq] at h
      simp [btreeSet, btreeLookup, heq, ih h]

/-- Claim C1: ready tasks are polled in FIFO order of their arrival on the
run queue.  Counterexample: starting from a fresh executor, spawn two tasks
(ids 1 then 2, appended in that order, with no interleaved dequeues); the
earliest still-queued task is id 1, yet `pop_task` returns the task with
id 2, because `pop_task` pops from the BACK of the deque the enqueues push
onto. -/
theorem C1_counterexample :
    (((InnerExecutor.spawn (InnerExecutor.spawn (Executor.init (β := Unit)) ()).1 ()).1.runq.head?).map Task.id
        = some 1)
    ∧ ((Executor.pop_task (InnerExecutor.spawn (InnerExecutor.spawn (Executor.init (β := Unit)) ()).1 ()).1).map
        (fun p => p.1.id) = some 2)
    ∧ (2 : Nat) ≠ 1 := by
  refine ⟨rfl, rfl, by decide⟩

/-- Claim C1, amended: the run queue is a stack, not a FIFO: every enqueue
(`spawn` and `queue`) pushes onto the back of the run queue, and
`pop_task` pops from the back, so with no interleaved dequeues the
executor dequeues the MOST RECENTLY enqueued task first (LIFO). -/
theorem C1_amended_lifo {β : Type} (s : ExecState β) (t : Task β) (fut : β) :
    Executor.pop_task { s with runq := s.runq ++ [t] } = some (t, s)
    ∧ (InnerExecutor.spawn s fut).1.runq
        = s.runq ++ [{ id := s.next_id, future := fut }] := by
  constructor
  · simp only [Executor.pop_task, List.getLast?_concat, List.dropLast_concat]
  · rfl

/-- Claim C6: `queue(id)` behaviour.  If `id` is the current task only the
woken flag is set; otherwise a parked task is moved from the table to the
back of the run queue; a notification for an id that is neither current
nor parked leaves the state unchanged. -/
theorem C6_queue_cases {β : Type} (s : ExecState β) (id : Nat) :
    (s.current_id = id → InnerExecutor.queue s id = { s with current_woken := true })
    ∧ (s.current_id ≠ id → ∀ t, tasksLookup s.tasks id = some t →
        InnerExecutor.queue s id
          = { s with tasks := tasksErase s.tasks id, runq := s.runq ++ [t] })
    ∧ (s.current_id ≠ id → tasksLookup s.tasks id = none →
        InnerExecutor.queue s id = s) := by
  refine ⟨fun h => ?_, fun h t ht => ?_, fun h ht => ?_⟩
  · simp [InnerExecutor.queue, h]
  · simp [InnerExecutor.queue, h, ht]
  · simp [InnerExecutor.queue, h, ht]

/-- Witness for C6 at a concrete executor state: current id 5, one parked
task with id 7; the three cases of the claim, instantiated. -/
theorem C6_queue_cases_witness :
    (InnerExecutor.queue
        { runq := [], tasks := [(7, { id := 7, future := () })], current_id := 5,
          current_woken := false, next_id := 8 } 5
      = { runq := [], tasks := [(7, { id := 7, future := () })], current_id := 5,
          current_woken := true, next_id := 8 })
    ∧ (InnerExecutor.queue
        { runq := [], tasks := [(7, { id := 7, future := () })], current_id := 5,
          current_woken := false, next_id := 8 } 7
      = { runq := [{ id := 7, future := () }], tasks := [], current_id := 5,
          current_woken := false, next_id := 8 })
    ∧ (InnerExecutor.queue
        { runq := [], tasks := [(7, { id := 7, future := () })], current_id := 5,
          current_woken := false, next_id := 8 } 9
      = { runq := [], tasks := [(7, { id := 7, future := () })], current_id := 5,
          current_woken := false, next_id := 8 }) := by
  refine ⟨?_, ?_, ?_⟩
  · exact (C6_queue_cases (β := Unit) _ 5).1 rfl
  · exact ((C6_queue_cases (β := Unit) _ 7).2.1 (by decide) _ rfl)
  · exact ((C6_queue_cases (β := Unit) _ 9).2.2 (by decide) rfl)

/-- Claim C2: `Runtime::new` fails with `AlreadyExists` when a runtime is
already bound to the calling thread.  Counterexample: with runtime 1
already bound, `Runtime::new` still returns `Ok` — the constructor never
inspects the thread-local binding. -/
theorem C2_counterexample :
    Runtime.new { bound := some 1 } 2 = Except.ok ({ bound := some 1 }, 2)
    ∧ Runtime.new { bound := some 1 } 2
        ≠ Except.error IoErrorKind.AlreadyExists := by
  exact ⟨rfl, fun h => Except.noConfusion h⟩

/-- Claim C2, amended: `Runtime::new` never fails with `AlreadyExists`; it
returns `Ok` with a new runtime even when a runtime is already bound to
the calling thread.  The binding conflict is detected only on entering
(`EnterGuard::new`, reached from `enter` and `block_on`), which panics
exactly when a DIFFERENT runtime is already bound. -/
theorem C2_amended_new_always_ok (tl : ThreadLocalRuntime) (fresh rt : Nat) :
    Runtime.new tl fresh = Except.ok (tl, fresh)
    ∧ (EnterGuard.new tl rt = .panicked ↔ ∃ r, tl.bound = some r ∧ r ≠ rt) := by
  refine ⟨rfl, ?_⟩
  cases htl : tl.bound with
  | none => simp [EnterGuard.new, htl]
  | some r =>
    by_cases hr : r = rt
    · simp [EnterGuard.new, htl, hr]
    · simp [EnterGuard.new, htl, hr]

/-- Witness for C2 amended: with runtime 1 bound, entering runtime 2
panics; the panic condition is discharged through the theorem itself. -/
theorem C2_amended_new_always_ok_witness :
    Runtime.new { bound := some 1 } 5 = Except.ok ({ bound := some 1 }, 5)
    ∧ EnterGuard.new { bound := some 1 } 2 = EnterResult.panicked := by
  refine ⟨(C2_amended_new_always_ok { bound := some 1 } 5 2).1, ?_⟩
  exact (C2_amended_new_always_ok { bound := some 1 } 5 2).2.mpr ⟨1, rfl, by decide⟩

/-- Claim C3: dropping a Sleep removes any entry still keyed by that
Sleep's (deadline, id) from the timer map.  Counterexample: create a
Sleep for deadline 5 in a fresh timer (it gets id 1) and drop it; the
entry `((5, 1) ↦ None)` is still in the map, because `Sleep` has no
`Drop` implementation. -/
theorem C3_counterexample :
    btreeLookup
      (Sleep.dropSleep (sleep_until ({ timers := [], next_id := 1 } : InnerTimer Nat) 5).1
        (sleep_until ({ timers := [], next_id := 1 } : InnerTimer Nat) 5).2).timers
      { deadline := 5, id := 1 } = some none
    ∧ some (none : Option Nat) ≠ none := by
  exact ⟨rfl, by decide⟩

/-- Claim C3, amended: dropping a Sleep leaves the timer map unchanged —
`Sleep` has no `Drop` implementation — so the entry created for it by
`sleep_until` is still present (with its stored waker) after the drop;
it disappears only when `Timer::tick` consumes it. -/
theorem C3_amended_drop_keeps_entry {ω : Type} (t : InnerTimer ω) (deadline : Nat) :
    Sleep.dropSleep (sleep_until t deadline).1 (sleep_until t deadline).2
      = (sleep_until t deadline).1
    ∧ btreeLookup
        (Sleep.dropSleep (sleep_until t deadline).1 (sleep_until t deadline).2).timers
        { deadline := deadline, id := t.next_id } = some none := by
  refine ⟨rfl, ?_⟩
  exact btreeLookup_insert t.timers { deadline := deadline, id := t.next_id } none

/-- Claim C4: polling a Sleep whose entry is present replaces an
already-stored waker.  Counterexample: an entry holding waker 1, polled
with waker 2, still holds waker 1 afterwards — the code uses
`get_or_insert_with`, which keeps an existing waker. -/
theorem C4_counterexample :
    (Sleep.pollSleep
        ({ timers := [({ deadline := 5, id := 1 }, some 1)], next_id := 2 } : InnerTimer Nat)
        { deadline := 5, id := 1 } 2).1 = Poll.Pending
    ∧ btreeLookup
        (Sleep.pollSleep
          ({ timers := [({ deadline := 5, id := 1 }, some 1)], next_id := 2 } : InnerTimer Nat)
          { deadline := 5, id := 1 } 2).2.timers
        { deadline := 5, id := 1 } = some (some 1)
    ∧ some (some 1) ≠ some (some (2 : Nat)) := by
  exact ⟨rfl, rfl, by decide⟩

/-- Claim C4, amended: polling a Sleep whose (deadline, id) entry is still
present stores the polling context's waker if none is stored and KEEPS
the already-stored waker otherwise, then returns Pending; polling a
Sleep whose entry is absent returns Ready. -/
theorem C4_amended_poll_sleep {ω : Type} (t : InnerTimer ω) (s : Sleep) (w : ω) :
    (btreeLookup t.timers s = none → Sleep.pollSleep t s w = (.Ready (), t))
    ∧ (btreeLookup t.timers s = some none →
        (Sleep.pollSleep t s w).1 = .Pending
        ∧ btreeLookup (Sleep.pollSleep t s w).2.timers s = some (some w))
    ∧ (∀ w0, btreeLookup t.timers s = some (some w0) →
        (Sleep.pollSleep t s w).1 = .Pending
        ∧ btreeLookup (Sleep.pollSleep t s w).2.timers s = some (some w0)) := by
  refine ⟨fun h => ?_, fun h => ?_, fun w0 h => ?_⟩
  · simp [Sleep.pollSleep, h]
  · refine ⟨by simp [Sleep.pollSleep, h], ?_⟩
    simp only [Sleep.pollSleep, h]
    exact btreeLookup_set t.timers s none (some w) h
  · refine ⟨by simp [Sleep.pollSleep, h], ?_⟩
    simp only [Sleep.pollSleep, h]
    exact btreeLookup_set t.timers s (some w0) (some w0) h

/-- Witness for C4 amended: the three cases at concrete timers — an empty
map (Ready), an entry with no stored waker (the polled waker 9 is
stored), and an entry holding waker 1 (kept when polled with waker 9). -/
theorem C4_amended_poll_sleep_witness :
    Sleep.pollSleep ({ timers := [], next_id := 1 } : InnerTimer Nat)
        { deadline := 3, id := 1 } 9
      = (.Ready (), { timers := [], next_id := 1 })
    ∧ btreeLookup
        (Sleep.pollSleep
          ({ timers := [({ deadline := 3, id := 1 }, none)], next_id := 2 } : InnerTimer Nat)
          { deadline := 3, id := 1 } 9).2.timers
        { deadline := 3, id := 1 } = some (some 9)
    ∧ btreeLookup
        (Sleep.pollSleep
          ({ timers := [({ deadline := 3, id := 1 }, some 1)], next_id := 2 } : InnerTimer Nat)
          { deadline := 3, id := 1 } 9).2.timers
        { deadline := 3, id := 1 } = some (some 1) := by
  refine ⟨?_, ?_, ?_⟩
  · exact (C4_amended_poll_sleep { timers := [], next_id := 1 } { deadline := 3, id := 1 } 9).1 rfl
  · exact ((C4_amended_poll_sleep
      { timers := [({ deadline := 3, id := 1 }, none)], next_id := 2 }
      { deadline := 3, id := 1 } 9).2.1 rfl).2
  · exact ((C4_amended_poll_sleep
      { timers := [({ deadline := 3, id := 1 }, some 1)], next_id := 2 }
      { deadline := 3, id := 1 } 9).2.2 1 rfl).2

/-- Claim C8: a bounded-channel send performed after the receiver is gone
resolves Ready(Err(SendError(v))) carrying the original value v, and the
channel's queue is unchanged by the failed send.  The receiver being gone
is exactly the state left by `Drop for Receiver`. -/
theorem C8_send_after_close {α ω : Type} (ch : Channel α ω) (selfId : Nat) (v : α)
    (w : ω) :
    Sender.sendPoll (Receiver.dropReceiver ch).1 selfId v w
      = (.Ready (.error { value := v }), (Receiver.dropReceiver ch).1, none)
    ∧ (Receiver.dropReceiver ch).1.queue = ch.queue := by
  exact ⟨by simp [Sender.sendPoll, Receiver.dropReceiver], rfl⟩

/-- Claim C9: `recv()` resolves Ready(None) iff the queue is empty and no
senders remain; a non-empty queue yields its front value even with no
senders left; an empty queue with a live sender leaves the receiver
Pending. -/
theorem C9_recv_none_iff {α ω : Type} (ch : Channel α ω) (senders : Nat) (w : ω) :
    ((Receiver.recvPoll ch senders w).1 = .Ready none
        ↔ ch.queue = [] ∧ senders = 0)
    ∧ (∀ v rest, ch.queue = v :: rest →
        (Receiver.recvPoll ch senders w).1 = .Ready (some v))
    ∧ (ch.queue = [] → senders ≠ 0 →
        (Receiver.recvPoll ch senders w).1 = .Pending) := by
  refine ⟨?_, fun v rest hq => ?_, fun hq hs => ?_⟩
  · cases hq : ch.queue with
    | nil =>
      by_cases hs : senders = 0
      · simp [Receiver.recvPoll, hq, hs]
      · simp [Receiver.recvPoll, hq, hs]
    | cons v rest =>
      by_cases hcap : ch.capacity ≠ usizeMax
      · simp [Receiver.recvPoll, hq, hcap]
      · simp [Receiver.recvPoll, hq, hcap]
  · by_cases hcap : ch.capacity ≠ usizeMax
    · simp [Receiver.recvPoll, hq, hcap]
    · simp [Receiver.recvPoll, hq, hcap]
  · simp [Receiver.recvPoll, hq, hs]

/-- Witness for C9 at concrete channels: an empty queue with zero senders
gives Ready none; a queued 42 is delivered even with zero senders; an
empty queue with one sender is Pending. -/
theorem C9_recv_none_iff_witness :
    (Receiver.recvPoll
        ({ queue := [], capacity := 4, tx_wakers := [], rx_waker := none,
           recv_gone := false, last_id := 1 } : Channel Nat Nat) 0 7).1 = .Ready none
    ∧ (Receiver.recvPoll
        ({ queue := [42], capacity := 4, tx_wakers := [], rx_waker := none,
           recv_gone := false, last_id := 1 } : Channel Nat Nat) 0 7).1
        = .Ready (some 42)
    ∧ (Receiver.recvPoll
        ({ queue := [], capacity := 4, tx_wakers := [], rx_waker := none,
           recv_gone := false, last_id := 1 } : Channel Nat Nat) 1 7).1 = .Pending := by
  refine ⟨?_, ?_, ?_⟩
  · exact (C9_recv_none_iff
      ({ queue := [], capacity := 4, tx_wakers := [], rx_waker := none,
         recv_gone := false, last_id := 1 } : Channel Nat Nat) 0 7).1.mpr ⟨rfl, rfl⟩
  · exact (C9_recv_none_iff
      ({ queue := [42], capacity := 4, tx_wakers := [], rx_waker := none,
         recv_gone := false, last_id := 1 } : Channel Nat Nat) 0 7).2.1 42 [] rfl
  · exact (C9_recv_none_iff
      ({ queue := [], capacity := 4, tx_wakers := [], rx_waker := none,
         recv_gone := false, last_id := 1 } : Channel Nat Nat) 1 7).2.2 rfl (by decide)

/-- Claim C10: a JoinHandle delivers its result at most once — a poll that
returned Ready(Ok v) leaves the shared cell empty, so every subsequent
poll finds it empty, stores the new waker and returns Pending. -/
theorem C10_join_result_once {α ω : Type} (st st2 : JoinInner α ω) (w : ω) (v : α)
    (h : JoinHandle.pollJoin st w = (.Ready (.ok v), st2)) :
    st2.result = none
    ∧ ∀ w2, JoinHandle.pollJoin st2 w2 = (.Pending, { st2 with waker := some w2 }) := by
  cases hres : st.result with
  | none => simp [JoinHandle.pollJoin, hres] at h
  | some r =>
    simp only [JoinHandle.pollJoin, hres] at h
    have h2 : ({ st with result := none } : JoinInner α ω) = st2 :=
      congrArg Prod.snd h
    refine ⟨by rw [← h2], fun w2 => ?_⟩
    rw [← h2]
    simp [JoinHandle.pollJoin]

/-- Bitwise or of naturals is zero exactly when both operands are. -/
theorem lor_eq_zero_iff (a b : Nat) : a ||| b = 0 ↔ a = 0 ∧ b = 0 := by
  constructor
  · intro h
    have key : ∀ x y : Nat, x ||| y = 0 → x = 0 := by
      intro x y hxy
      by_contra hne
      obtain ⟨j, hj⟩ := Nat.ne_zero_implies_bit_true hne
      have hbit : (x ||| y).testBit j = true := by
        rw [Nat.testBit_lor, hj]
        simp
      rw [hxy] at hbit
      simp [Nat.zero_testBit] at hbit
    exact ⟨key a b h, key b a (by rwa [Nat.lor_comm] at h)⟩
  · rintro ⟨rfl, rfl⟩
    rfl

/-- Non-zero test of a bitwise or, at the Bool level. -/
theorem lor_bne_zero (x y : Nat) : ((x ||| y) != 0) = ((x != 0) || (y != 0)) := by
  by_cases hx : x = 0
  · subst hx
    rw [Nat.zero_or]
    simp
  · have hne : (x ||| y) ≠ 0 := fun hh => hx ((lor_eq_zero_iff x y).mp hh).1
    apply Bool.eq_iff_iff.mpr
    simp [hne, hx]

/-- The code's combined dispatch test, `(interest | ERR|HUP|NVAL) &
revents != 0`, equals the claim's disjunction: interest bit among the
returned events, or error/hangup/invalid condition reported. -/
theorem wakesWaiter_eq_or {ω : Type} (w : FdWaiter ω) (r : Nat) :
    wakesWaiter w r
      = (((w.interest.bits &&& r) != 0) || ((INTERESTING &&& r) != 0)) := by
  unfold wakesWaiter
  rw [Nat.and_distrib_right, lor_bne_zero]

/-- `processSlot` read off slot by slot: indexing the slot-wise image. -/
theorem processAll_get? {ω : Type} (slots : List (Slot ω)) (i j : Nat) :
    (processAll i slots).get? j = (slots.get? j).map fun s => processSlot (i + j) s := by
  induction slots generalizing i j with
  | nil => simp [processAll]
  | cons s rest ih =>
    cases j with
    | zero => simp [processAll]
    | succ j =>
      simp only [processAll, List.get?_cons_succ]
      rw [ih (i + 1) j]
      have harith : i + 1 + j = i + (j + 1) := by omega
      rw [harith]

/-- With no reported events, the loop leaves every slot unchanged and
wakes nobody. -/
theorem processAll_no_events {ω : Type} (slots : List (Slot ω)) (i : Nat)
    (h : countEvents slots = 0) :
    processAll i slots = slots ∧ reactWokenSpec i slots = [] := by
  induction slots generalizing i with
  | nil => simp [processAll, reactWokenSpec]
  | cons s rest ih =>
    rw [countEvents] at h
    by_cases hrev : s.1.revents = 0
    · simp only [hrev] at h
      simp only [ne_eq, not_true_eq_false, if_false, Nat.zero_add] at h
      obtain ⟨h1, h2⟩ := ih (i + 1) h
      refine ⟨?_, ?_⟩
      · simp [processAll, processSlot, hrev, h1]
      · simp [reactWokenSpec, hrev, h2]
    · simp [hrev] at h

/-- The wakers a slot dispatch wakes are exactly those the claim's
disjunctive test selects, in list order. -/
theorem reactSlot_snd {ω : Type} (s : Slot ω) :
    (reactSlot s).2 = (s.2.waiters.filter fun w =>
        ((w.interest.bits &&& s.1.revents) != 0)
        || ((INTERESTING &&& s.1.revents) != 0)).map fun w => w.waker := by
  have hwk : (fun (w : FdWaiter ω) => wakesWaiter w s.1.revents)
      = fun w => ((w.interest.bits &&& s.1.revents) != 0)
          || ((INTERESTING &&& s.1.revents) != 0) :=
    funext fun w => wakesWaiter_eq_or w s.1.revents
  simp only [reactSlot, hwk]
  split <;> rfl

/-- The loop of `react`, run with at least as many reported events as the
slots carry, processes every slot: it equals the slot-wise image and the
specification's woken list. -/
theorem reactLoop_eq {ω : Type} (slots : List (Slot ω)) (i todo : Nat)
    (h : countEvents slots ≤ todo) :
    reactLoop i todo slots = (processAll i slots, reactWokenSpec i slots) := by
  induction slots generalizing i todo with
  | nil => simp [reactLoop, processAll, reactWokenSpec]
  | cons s rest ih =>
    rw [countEvents] at h
    by_cases hrev : s.1.revents = 0
    · have hle : countEvents rest ≤ todo := by
        simpa [hrev] using h
      by_cases htodo : todo = 0
      · subst htodo
        obtain ⟨h1, h2⟩ := processAll_no_events rest (i + 1) (Nat.le_zero.mp hle)
        simp [reactLoop, processAll, reactWokenSpec, processSlot, hrev, h1, h2]
      · simp [reactLoop, htodo, hrev, ih (i + 1) todo hle, processAll,
          reactWokenSpec, processSlot]
    · have hone : (1 : Nat) ≤ todo := by
        rw [if_pos hrev] at h
        omega
      have htodo : todo ≠ 0 := by omega
      have hle : countEvents rest ≤ todo - 1 := by
        rw [if_pos hrev] at h
        omega
      by_cases hi : i = 0
      · subst hi
        simp [reactLoop, htodo, hrev, ih 1 (todo - 1) hle, processAll,
          reactWokenSpec, processSlot]
      · have hstep : reactLoop i todo (s :: rest)
            = ((reactSlot s).1 :: (reactLoop (i + 1) (todo - 1) rest).1,
              (reactSlot s).2 ++ (reactLoop (i + 1) (todo - 1) rest).2) := by
          simp [reactLoop, htodo, hrev, hi]
        rw [hstep, ih (i + 1) (todo - 1) hle, reactSlot_snd]
        refine Prod.ext ?_ ?_
        · show (reactSlot s).1 :: processAll (i + 1) rest = processAll i (s :: rest)
          simp [processAll, processSlot, hrev, hi]
        · show _ ++ reactWokenSpec (i + 1) rest = reactWokenSpec i (s :: rest)
          simp [reactWokenSpec, hi, hrev]

/-- Claim C5: in `react`, for every waiter slot (index ≥ 1) whose
returned events are non-zero, exactly the waiters whose interest bit is
set in revents, or for which an error/hangup/invalid condition is
reported, are removed from the slot and have their waker invoked (the
woken wakers of the whole call are `reactWokenSpec`); the remaining
waiters stay registered; the slot keeps its fd and gets the recomputed
event mask while waiters remain, and has its fd negated when none do;
revents is cleared.  `n` is poll(2)'s return value: the number of slots
with non-zero revents. -/
theorem C5_react_dispatch {ω : Type} (slots : List (Slot ω)) (n i : Nat)
    (pfd : Pollfd) (fw : FdWaiters ω)
    (hn : countEvents slots = n) (hi : i ≠ 0)
    (hget : slots.get? i = some (pfd, fw)) (hrev : pfd.revents ≠ 0) :
    (InnerReactor.react slots n).2 = reactWokenSpec 0 slots
    ∧ (keepSpec fw pfd.revents ≠ [] →
        (InnerReactor.react slots n).1.get? i
          = some ({ pfd with
                events := FdWaiters.poll_bits
                  { fw with waiters := keepSpec fw pfd.revents },
                revents := 0 },
              { fw with waiters := keepSpec fw pfd.revents }))
    ∧ (keepSpec fw pfd.revents = [] →
        (InnerReactor.react slots n).1.get? i
          = some ({ pfd with events := 0, fd := -pfd.fd, revents := 0 },
              { fw with waiters := [] })) := by
  have hrun : reactLoop 0 n slots = (processAll 0 slots, reactWokenSpec 0 slots) :=
    reactLoop_eq slots 0 n (by omega)
  have hkeep : (fun (w : FdWaiter ω) => !(wakesWaiter w pfd.revents))
      = fun w => !(((w.interest.bits &&& pfd.revents) != 0)
          || ((INTERESTING &&& pfd.revents) != 0)) :=
    funext fun w => by rw [wakesWaiter_eq_or]
  have hslot : (InnerReactor.react slots n).1.get? i
      = some (processSlot i (pfd, fw)) := by
    unfold InnerReactor.react
    rw [hrun]
    show (processAll 0 slots).get? i = _
    rw [processAll_get?, hget]
    simp
  have hproc : processSlot i (pfd, fw) = (reactSlot (pfd, fw)).1 := by
    simp [processSlot, hrev, hi]
  refine ⟨?_, fun hne => ?_, fun hnil => ?_⟩
  · unfold InnerReactor.react
    rw [hrun]
  · have hfil : (fw.waiters.filter fun w =>
        !(((w.interest.bits &&& pfd.revents) != 0)
          || ((INTERESTING &&& pfd.revents) != 0))) ≠ [] := hne
    rw [hslot, hproc]
    simp only [reactSlot, hkeep]
    rw [if_pos (List.length_pos.mpr hfil)]
    rfl
  · have hfil : (fw.waiters.filter fun w =>
        !(((w.interest.bits &&& pfd.revents) != 0)
          || ((INTERESTING &&& pfd.revents) != 0))) = [] := hnil
    rw [hslot, hproc]
    simp only [reactSlot, hkeep]
    rw [if_neg (by rw [hfil]; simp)]
    rw [hfil]

/-- Witness for C5 at `demoSlots`: poll reported two slots; slot 1's read
waiter (waker 10) is woken by `POLLIN`, its write waiter (waker 20) by
`POLLHUP`; no waiter remains, so the fd is negated and events cleared. -/
theorem C5_react_dispatch_witness :
    (InnerReactor.react demoSlots 2).2 = [10, 20]
    ∧ (InnerReactor.react demoSlots 2).1.get? 1
        = some ({ fd := -5, events := 0, revents := 0 },
            { refcount := 2, waiters := [] }) := by
  have h := C5_react_dispatch demoSlots 2 1
    { fd := 5, events := 5, revents := 17 }
    { refcount := 2,
      waiters := [{ interest := .Read, waker := 10 }, { interest := .Write, waker := 20 }] }
    (by decide) (by decide) (by decide) (by decide)
  refine ⟨?_, ?_⟩
  · rw [h.1]
    decide
  · have h2 := h.2.2 (by decide)
    rw [h2]

/-- Every entry of a task's inner-loop trace carries that task's id. -/
theorem innerLoop_trace_id (behav : List PollOut) (s : SchedState) (id : Nat) :
    ∀ e ∈ (innerLoop behav s id).2, e.id = id := by
  induction behav generalizing s with
  | nil =>
    intro e he
    by_cases hsw : s.current_woken
    · simp [innerLoop, hsw] at he
      rcases he with h | h <;> simp [h]
    · simp [innerLoop, hsw] at he
      simp [he]
  | cons o rest ih =>
    intro e he
    by_cases hr : o.ready
    · simp [innerLoop, hr] at he
      simp [he]
    · by_cases hsw :
        (o.wakes.foldl (fun acc w => InnerExecutor.queue acc w) s).current_woken
      · simp [innerLoop, hr, hsw] at he
        rcases he with h | h
        · simp [h]
        · exact ih _ e h
      · simp [innerLoop, hr, hsw] at he
        simp [he]

/-- A task's inner-loop trace is never empty. -/
theorem innerLoop_trace_ne_nil (behav : List PollOut) (s : SchedState) (id : Nat) :
    (innerLoop behav s id).2 ≠ [] := by
  cases behav with
  | nil =>
    by_cases hsw : s.current_woken <;> simp [innerLoop, hsw]
  | cons o rest =>
    by_cases hr : o.ready
    · simp [innerLoop, hr]
    · by_cases hsw :
        (o.wakes.foldl (fun acc w => InnerExecutor.queue acc w) s).current_woken
      · simp [innerLoop, hr, hsw]
      · simp [innerLoop, hr, hsw]

/-- Adjacency inside one inner loop: a Pending poll during which the task
woke itself is immediately followed by another poll of the same task. -/
theorem innerLoop_selfwake_next (behav : List PollOut) (s : SchedState) (id k : Nat)
    (e : TraceEntry) (hk : (innerLoop behav s id).2.get? k = some e)
    (hr : e.ready = false) (hw : e.selfWake = true) :
    ∃ e2, (innerLoop behav s id).2.get? (k + 1) = some e2 ∧ e2.id = id := by
  induction behav generalizing s k with
  | nil =>
    by_cases hsw : s.current_woken
    · simp only [innerLoop, if_pos hsw] at hk ⊢
      match k, hk with
      | 0, hk => exact ⟨{ id := id, ready := false, selfWake := false }, rfl, rfl⟩
      | 1, hk =>
        have hse : e.selfWake = false := by rw [← Option.some.inj hk]
        rw [hse] at hw
        exact Bool.noConfusion hw
    · simp only [innerLoop, if_neg hsw] at hk
      match k, hk with
      | 0, hk =>
        have hse : e.selfWake = false := by rw [← Option.some.inj hk]
        rw [hse] at hw
        exact Bool.noConfusion hw
  | cons o rest ih =>
    by_cases hro : o.ready
    · simp only [innerLoop, if_pos hro] at hk
      match k, hk with
      | 0, hk =>
        have hre : e.ready = true := by rw [← Option.some.inj hk]
        rw [hre] at hr
        exact Bool.noConfusion hr
    · by_cases hsw :
        (o.wakes.foldl (fun acc w => InnerExecutor.queue acc w) s).current_woken
      · simp only [innerLoop, if_neg hro, if_pos hsw] at hk ⊢
        cases k with
        | zero =>
          rcases htr : (innerLoop rest
              { o.wakes.foldl (fun acc w => InnerExecutor.queue acc w) s with
                current_woken := false } id).2 with _ | ⟨x, xs⟩
          · exact absurd htr (innerLoop_trace_ne_nil rest _ id)
          · refine ⟨x, rfl, ?_⟩
            exact innerLoop_trace_id rest _ id x
              (by rw [htr]; exact List.mem_cons_self x xs)
        | succ k =>
          have hk2 : (innerLoop rest
              { o.wakes.foldl (fun acc w => InnerExecutor.queue acc w) s with
                current_woken := false } id).2.get? k = some e := hk
          obtain ⟨e2, h2, hid⟩ := ih _ k hk2
          exact ⟨e2, h2, hid⟩
      · simp only [innerLoop, if_neg hro, if_neg hsw] at hk
        match k, hk with
        | 0, hk =>
          have hse : e.selfWake = false := by rw [← Option.some.inj hk]
          rw [hse] at hw
          exact Bool.noConfusion hw

/-- Claim C7: a task that invokes its own waker while being polled (so
the re-notified flag is set during the poll) is polled at least once
more by the driver loop before any other task is polled: in the driver
trace, the entry right after a Pending self-woken poll exists and polls
the same task. -/
theorem C7_self_wake_progress (fuel : Nat) (s : SchedState) (k : Nat) (e : TraceEntry)
    (hk : (drain fuel s).2.get? k = some e)
    (hr : e.ready = false) (hw : e.selfWake = true) :
    ∃ e2, (drain fuel s).2.get? (k + 1) = some e2 ∧ e2.id = e.id := by
  induction fuel generalizing s k with
  | zero => simp [drain] at hk
  | succ fuel ih =>
    rcases hpop : Executor.pop_task s with _ | ⟨t, s1⟩
    · rw [drain] at hk ⊢
      rw [hpop] at hk
      simp at hk
    · rw [drain] at hk ⊢
      rw [hpop] at hk ⊢
      simp only at hk ⊢
      by_cases hlt :
        k < (innerLoop t.future { s1 with current_id := t.id, current_woken := false } t.id).2.length
      · have hk1 : (innerLoop t.future
            { s1 with current_id := t.id, current_woken := false } t.id).2.get? k
              = some e := by
          rwa [List.get?_append hlt] at hk
        obtain ⟨e2, h2, hid⟩ := innerLoop_selfwake_next t.future
          { s1 with current_id := t.id, current_woken := false } t.id k e hk1 hr hw
        have hlt2 : k + 1 < (innerLoop t.future
            { s1 with current_id := t.id, current_woken := false } t.id).2.length := by
          by_contra hge
          push_neg at hge
          rw [List.get?_eq_none.mpr hge] at h2
          exact Option.noConfusion h2
        have heid : e.id = t.id := innerLoop_trace_id t.future
          { s1 with current_id := t.id, current_woken := false } t.id e
          (List.get?_mem hk1)
        refine ⟨e2, ?_, ?_⟩
        · rw [List.get?_append hlt2]
          exact h2
        · rw [hid, heid]
      · push_neg at hlt
        have hk2 : (drain fuel (innerLoop t.future
            { s1 with current_id := t.id, current_woken := false } t.id).1).2.get?
              (k - (innerLoop t.future
                { s1 with current_id := t.id, current_woken := false } t.id).2.length)
            = some e := by
          rwa [List.get?_append_right hlt] at hk
        obtain ⟨e2, h2, hid⟩ := ih _ _ hk2
        refine ⟨e2, ?_, hid⟩
        rw [List.get?_append_right (by omega)]
        have harith : k + 1 - (innerLoop t.future
            { s1 with current_id := t.id, current_woken := false } t.id).2.length
            = (k - (innerLoop t.future
                { s1 with current_id := t.id, current_woken := false } t.id).2.length) + 1 := by
          omega
        rw [harith]
        exact h2

/-- Witness for C7: a single task (id 1) that wakes itself during its
first poll; the trace's first entry is that self-woken Pending poll and
the very next poll is again of task 1. -/
theorem C7_self_wake_progress_witness :
    (drain 2 selfWakeDemo).2.get? 0
      = some { id := 1, ready := false, selfWake := true }
    ∧ ∃ e2, (drain 2 selfWakeDemo).2.get? 1 = some e2 ∧ e2.id = 1 := by
  refine ⟨rfl, ?_⟩
  exact C7_self_wake_progress 2 selfWakeDemo 0
    { id := 1, ready := false, selfWake := true } rfl rfl rfl

/-- Witness for C10: a cell holding 3 polled with waker 7 yields
Ready(Ok 3); the follow-up poll with waker 9 finds the cell empty and
parks waker 9. -/
theorem C10_join_result_once_witness :
    (({ result := none, waker := none } : JoinInner Nat Nat).result = none)
    ∧ JoinHandle.pollJoin ({ result := none, waker := none } : JoinInner Nat Nat) 9
        = (.Pending, { result := none, waker := some 9 }) := by
  have h := C10_join_result_once
    ({ result := some 3, waker := none } : JoinInner Nat Nat)
    ({ result := none, waker := none } : JoinInner Nat Nat) 7 3 rfl
  exact ⟨h.1, h.2 9⟩

end Nara
